import Mathlib

/-!
Shallow embedding of src/game.js (the SkyOrchardGame engine).

The engine is single-threaded and callback-driven: all mutation happens
inside tap handlers and timer callbacks.  We embed the mutable object
SkyOrchardGame as a Lean structure GameState and each handler as a pure
state-transformer.  Scheduled callbacks are modelled explicitly:

  - this.spawnTimeout  (the handle of the pending spawn setTimeout) becomes
    the flag GameState.spawnTimeout: a spawn callback can fire only while it
    is set, and clearTimeout resets it;
  - this.timerInterval (the handle of the tick setInterval) becomes the flag
    GameState.timerInterval;
  - the source OVERWRITES these handles without clearing them (spawnLoop,
    line 166, and startTimer, line 262): when the overwritten handle was
    still live (resume() called while the timers were armed), that timer
    leaks: it keeps firing but clearTimeout / clearInterval on the stored
    handle can no longer reach it.  GameState.leakedSpawnTimeouts counts
    pending spawn timeouts whose handle was overwritten (each fires once,
    through Event.leakedSpawnFire), and GameState.leakedIntervals counts
    tick intervals whose handle was overwritten (they fire forever, through
    Event.leakedTick); pause(), finish() and resetState() clear only the
    tracked flags, never the leaked counters;
  - the anonymous per-orb expiry setTimeout of spawnOrb (line 198) is never
    stored by the source and hence never cancelled; we record the ids of
    orbs with a pending expiry callback in GameState.expiryPending;
  - the anonymous 220 ms removal setTimeout of collectOrb (line 232) is
    recorded likewise in GameState.removalPending.

DOM state used by the handlers is embedded as data: the orb elements
appended to the play area become the list GameState.orbs (an orb element is
connected iff its id occurs in that list), and the dataset attributes
dataset.type / dataset.captured become the Orb fields.  Haptic calls are
logged in GameState.feedback.  Purely visual state (element positions, the
score / timer text labels, the overlay, the hint, the Telegram buttons) and
the real-time values of delays are not observable by any handler and are
omitted; the delay arithmetic of spawnLoop is embedded separately as the
pure functions activeSpawnCfg / spawnJitter / nextSpawnDelay.

Math.random rolls are passed to the events that consume them as a rational
parameter r with 0 <= r <= 1.
-/

namespace SkyOrchard

/-- GAME_DURATION (src/game.js line 10), in seconds. -/
def GAME_DURATION : Int := 60

/-- ORB_LIFETIME (src/game.js line 11), in milliseconds. -/
def ORB_LIFETIME : ℚ := 2200

/-- HINT_TIMEOUT (src/game.js line 12), in milliseconds. -/
def HINT_TIMEOUT : ℚ := 2500

/-- One entry of SPAWN_CONFIG (src/game.js lines 14-19). -/
structure SpawnCfg where
  threshold : Nat
  interval : ℚ
deriving DecidableEq

instance : Inhabited SpawnCfg := ⟨⟨0, 1200⟩⟩

/-- SPAWN_CONFIG (src/game.js lines 14-19). -/
def SPAWN_CONFIG : List SpawnCfg :=
  [⟨0, 1200⟩, ⟨20, 900⟩, ⟨40, 750⟩, ⟨55, 600⟩]

/-- One entry of ORB_TYPES (src/game.js lines 21-25); a missing extraTime
field is the falsy 0, matching the truthiness test on line 226. -/
structure OrbType where
  name : String
  weight : ℚ
  score : Nat
  extraTime : Nat
deriving DecidableEq

def commonOrb : OrbType := { name := "common", weight := 7/10, score := 1, extraTime := 0 }

def rareOrb : OrbType := { name := "rare", weight := 1/5, score := 3, extraTime := 0 }

def bonusOrb : OrbType := { name := "bonus", weight := 1/10, score := 5, extraTime := 2 }

instance : Inhabited OrbType := ⟨commonOrb⟩

/-- ORB_TYPES (src/game.js lines 21-25). -/
def ORB_TYPES : List OrbType := [commonOrb, rareOrb, bonusOrb]

/-- An orb element in the play area: dataset.id, dataset.type,
dataset.captured (src/game.js lines 169-199, 213-220). -/
structure Orb where
  id : Nat
  typeName : String
  captured : Bool
deriving DecidableEq

/-- The mutable state of a SkyOrchardGame instance together with its
scheduled callbacks and the DOM orb elements (see the module comment). -/
structure GameState where
  score : Nat
  timeLeft : Int
  orbs : List Orb
  orbId : Nat
  isRunning : Bool
  spawnTimeout : Bool
  timerInterval : Bool
  leakedSpawnTimeouts : Nat
  leakedIntervals : Nat
  expiryPending : List Nat
  removalPending : List Nat
  feedback : List String
deriving DecidableEq

/-- The state built by the constructor (src/game.js lines 72-80). -/
def initState : GameState :=
  { score := 0, timeLeft := GAME_DURATION, orbs := [], orbId := 0,
    isRunning := false, spawnTimeout := false, timerInterval := false,
    leakedSpawnTimeouts := 0, leakedIntervals := 0,
    expiryPending := [], removalPending := [], feedback := [] }

/-- Lookup of an orb element by dataset.id: the first element of the play
area whose id matches, none when no such element is connected. -/
def findOrb : List Orb → Nat → Option Orb
  | [], _ => none
  | o :: rest, i => if o.id == i then some o else findOrb rest i

/-- Setting dataset.captured on the element found by findOrb
(src/game.js line 216). -/
def captureFirst : List Orb → Nat → List Orb
  | [], _ => []
  | o :: rest, i => if o.id == i then { o with captured := true } :: rest else o :: captureFirst rest i

/-- Removal of the element found by findOrb from the play area
(orb.remove, src/game.js line 238). -/
def removeFirstOrb : List Orb → Nat → List Orb
  | [], _ => []
  | o :: rest, i => if o.id == i then rest else o :: removeFirstOrb rest i

/-- The cumulative-weight scan of pickOrbType (src/game.js lines 204-209):
for..of over the catalog, returning the first type whose cumulative weight
is at least the roll. -/
def pickScan : List OrbType → ℚ → ℚ → Option OrbType
  | [], _, _ => none
  | t :: rest, cumulative, roll =>
    if roll ≤ cumulative + t.weight then some t else pickScan rest (cumulative + t.weight) roll

/-- SkyOrchardGame.pickOrbType (src/game.js lines 201-211): cumulative scan
with fallback to the first catalog entry when the scan falls through. -/
def pickOrbType (roll : ℚ) : OrbType :=
  (pickScan ORB_TYPES 0 roll).getD ORB_TYPES.headI

/-- The type lookup of handleOrbTap (src/game.js line 218):
ORB_TYPES.find by name with fallback to the first entry. -/
def orbTypeFor (n : String) : OrbType :=
  (ORB_TYPES.find? (fun t => t.name == n)).getD ORB_TYPES.headI

/-- The reduce of spawnLoop (src/game.js line 162): fold over SPAWN_CONFIG,
replacing the accumulator (initially the first entry) by every entry whose
threshold is at most the current score. -/
def activeSpawnCfg (score : Nat) : SpawnCfg :=
  SPAWN_CONFIG.foldl (fun acc cfg => if cfg.threshold ≤ score then cfg else acc) SPAWN_CONFIG.headI

/-- The jitter of spawnLoop (src/game.js line 163): Math.random() * 220 - 110,
with the roll r in [0, 1]. -/
def spawnJitter (r : ℚ) : ℚ := r * 220 - 110

/-- The next-spawn delay of spawnLoop (src/game.js line 164):
Math.max(320, current.interval + jitter). -/
def nextSpawnDelay (score : Nat) (r : ℚ) : ℚ :=
  max 320 ((activeSpawnCfg score).interval + spawnJitter r)

/-- Modelled from the spec (section 4.2): the active interval is the last
SpawnConfigEntry, scanned in ascending threshold order, whose threshold is
at most the current score.  Written from the words of the spec for
comparison with activeSpawnCfg, the definition taken from the source. -/
def specActiveInterval (score : Nat) : ℚ :=
  ((SPAWN_CONFIG.filter (fun c => decide (c.threshold ≤ score))).getLastD SPAWN_CONFIG.headI).interval

/-- SkyOrchardGame.resetState (src/game.js lines 145-156): score and
timeLeft reset, all orb elements removed from the play area, the tracked
spawn timeout and tick interval cleared.  The orb id counter, the
(untracked) expiry and removal timeouts and the feedback log are untouched. -/
def resetState (s : GameState) : GameState :=
  { s with score := 0, timeLeft := GAME_DURATION, orbs := [],
           spawnTimeout := false, timerInterval := false }

/-- SkyOrchardGame.spawnOrb (src/game.js lines 169-199): a fresh element
with id ++this.orbId and a rolled type is appended to the play area and its
expiry timeout is scheduled. -/
def spawnOrb (s : GameState) (rType : ℚ) : GameState :=
  let newId := s.orbId + 1
  let t := pickOrbType rType
  { s with orbId := newId,
           orbs := s.orbs ++ [{ id := newId, typeName := t.name, captured := false }],
           expiryPending := s.expiryPending ++ [newId] }

/-- SkyOrchardGame.spawnLoop (src/game.js lines 158-167): bail out unless
running, spawn one orb, schedule the next iteration (the delay arithmetic
is the pure function nextSpawnDelay).  Line 166 assigns the new setTimeout
handle to this.spawnTimeout without clearTimeout: a spawn timeout still
pending at that point is leaked, not cancelled. -/
def spawnLoop (s : GameState) (rType : ℚ) : GameState :=
  if s.isRunning then
    let s1 := spawnOrb s rType
    { s1 with spawnTimeout := true,
              leakedSpawnTimeouts := s1.leakedSpawnTimeouts + (if s1.spawnTimeout then 1 else 0) }
  else s

/-- SkyOrchardGame.startTimer (src/game.js lines 253-263): arm the tick
interval.  Line 262 assigns the new setInterval handle to
this.timerInterval without clearInterval: an interval still live at that
point is leaked, not cancelled. -/
def startTimer (s : GameState) : GameState :=
  { s with timerInterval := true,
           leakedIntervals := s.leakedIntervals + (if s.timerInterval then 1 else 0) }

/-- SkyOrchardGame.incrementScore (src/game.js lines 244-247). -/
def incrementScore (s : GameState) (amount : Nat) : GameState :=
  { s with score := s.score + amount }

/-- SkyOrchardGame.collectOrb (src/game.js lines 222-233): impact feedback
(heavy for the bonus type, medium otherwise), score increment, extra time
clamped at GAME_DURATION when the type has a truthy extraTime, and the
220 ms removal timeout for the collected element. -/
def collectOrb (s : GameState) (i : Nat) (t : OrbType) : GameState :=
  { s with
    feedback := s.feedback ++ [if t.name == "bonus" then "impact:heavy" else "impact:medium"],
    score := s.score + t.score,
    timeLeft := if t.extraTime ≠ 0 then min GAME_DURATION (s.timeLeft + (t.extraTime : Int)) else s.timeLeft,
    removalPending := s.removalPending ++ [i] }

/-- SkyOrchardGame.handleOrbTap (src/game.js lines 213-220) together with
the pointerdown dispatch (lines 90-94): the event carries a connected orb
element (none found means no handler runs); the handler returns unless
running and not yet captured, otherwise sets dataset.captured and collects. -/
def handleOrbTap (s : GameState) (i : Nat) : GameState :=
  match findOrb s.orbs i with
  | none => s
  | some o =>
    if s.isRunning then
      if o.captured then s
      else collectOrb { s with orbs := captureFirst s.orbs i } i (orbTypeFor o.typeName)
    else s

/-- SkyOrchardGame.removeOrb (src/game.js lines 235-242): return when the
element is not connected or already captured, otherwise remove it and, when
this is an expiry and the game is running, emit light impact feedback. -/
def removeOrb (s : GameState) (i : Nat) (expired : Bool) : GameState :=
  match findOrb s.orbs i with
  | none => s
  | some o =>
    if o.captured then s
    else
      { s with orbs := removeFirstOrb s.orbs i,
               feedback := if expired && s.isRunning then s.feedback ++ ["impact:light"] else s.feedback }

/-- SkyOrchardGame.finish (src/game.js lines 283-295): stop running, clear
the tracked timers, success notification (the overlay and the Telegram
button wiring are visual/external). -/
def finish (s : GameState) : GameState :=
  { s with isRunning := false, spawnTimeout := false, timerInterval := false,
           feedback := s.feedback ++ ["notification:success"] }

/-- The tick closure of startTimer (src/game.js lines 254-260): decrement
timeLeft by one and finish when it has reached zero or below. -/
def tick (s : GameState) : GameState :=
  let s1 := { s with timeLeft := s.timeLeft - 1 }
  if s1.timeLeft ≤ 0 then finish s1 else s1

/-- SkyOrchardGame.start (src/game.js lines 118-143): reset, mark running,
run the spawn loop once synchronously, arm the tick interval, success
notification (hint and Telegram button handling are visual/external). -/
def startGame (s : GameState) (r : ℚ) : GameState :=
  let s1 := { resetState s with isRunning := true }
  let s2 := startTimer (spawnLoop s1 r)
  { s2 with feedback := s2.feedback ++ ["notification:success"] }

/-- SkyOrchardGame.pause (src/game.js lines 269-275): return unless
running, otherwise clear the tracked spawn timeout and tick interval.
The per-orb expiry timeouts are not touched. -/
def pauseGame (s : GameState) : GameState :=
  if s.isRunning then { s with spawnTimeout := false, timerInterval := false } else s

/-- SkyOrchardGame.resume (src/game.js lines 277-281): return unless
running, otherwise run the spawn loop once synchronously and arm the tick
interval. -/
def resumeGame (s : GameState) (r : ℚ) : GameState :=
  if s.isRunning then startTimer (spawnLoop s r) else s

/-- The callback events the host can deliver to the engine: the public
entry points (start, pause, resume, a pointerdown tap) and the firing of each
kind of scheduled timer.  Random rolls consumed by a callback are carried
by the event. -/
inductive Event where
  | start (r : ℚ)
  | pause
  | resume (r : ℚ)
  | tap (i : Nat)
  | spawnFire (r : ℚ)
  | timerTick
  | leakedSpawnFire (r : ℚ)
  | leakedTick
  | expiryFire (i : Nat)
  | removalFire (i : Nat)
deriving DecidableEq

/-- One callback invocation.  A timer callback can fire only while its
timer is pending; firing a spawn timeout or an expiry timeout consumes it
(a cleared timer never fires).  Leaked timers fire through their own
events: a leaked spawn timeout fires once and is consumed, a leaked
interval keeps firing and is never consumed, since no handle to it
survives. -/
def step (s : GameState) : Event → GameState
  | Event.start r => startGame s r
  | Event.pause => pauseGame s
  | Event.resume r => resumeGame s r
  | Event.tap i => handleOrbTap s i
  | Event.spawnFire r => if s.spawnTimeout then spawnLoop { s with spawnTimeout := false } r else s
  | Event.timerTick => if s.timerInterval then tick s else s
  | Event.leakedSpawnFire r =>
      if s.leakedSpawnTimeouts ≠ 0 then
        spawnLoop { s with leakedSpawnTimeouts := s.leakedSpawnTimeouts - 1 } r
      else s
  | Event.leakedTick => if s.leakedIntervals ≠ 0 then tick s else s
  | Event.expiryFire i =>
      if i ∈ s.expiryPending then removeOrb { s with expiryPending := s.expiryPending.erase i } i true
      else s
  | Event.removalFire i =>
      if i ∈ s.removalPending then
        { s with removalPending := s.removalPending.erase i, orbs := removeFirstOrb s.orbs i }
      else s

/-- A sequence of callback invocations. -/
def run (s : GameState) (evs : List Event) : GameState :=
  evs.foldl step s

/-- The session status abstraction of the spec: the source only stores
isRunning, and a paused session is a running one whose timers are cleared. -/
inductive Status where
  | running
  | paused
  | stopped
deriving DecidableEq

/-- Status of a state: running with the tick interval armed is Running,
running with it cleared is Paused, not running is Idle or Finished. -/
def statusOf (s : GameState) : Status :=
  if s.isRunning then (if s.timerInterval then Status.running else Status.paused) else Status.stopped

end SkyOrchard

namespace SkyOrchard

/-! Helper lemmas about the list operations of the embedding. -/

lemma run_nil (s : GameState) : run s [] = s := rfl

lemma run_cons (s : GameState) (e : Event) (rest : List Event) :
    run s (e :: rest) = run (step s e) rest := rfl

lemma run_append (s : GameState) (l1 l2 : List Event) :
    run s (l1 ++ l2) = run (run s l1) l2 := by
  simp [run, List.foldl_append]

lemma captureFirst_map_id (l : List Orb) (i : Nat) :
    (captureFirst l i).map Orb.id = l.map Orb.id := by
  induction l with
  | nil => rfl
  | cons a rest ih =>
    rw [captureFirst]
    split
    · simp
    · simp [ih]

lemma removeFirstOrb_sublist (l : List Orb) (i : Nat) :
    List.Sublist (removeFirstOrb l i) l := by
  induction l with
  | nil => simp [removeFirstOrb]
  | cons a rest ih =>
    rw [removeFirstOrb]
    split
    · exact List.sublist_cons_self a rest
    · exact ih.cons₂ a

lemma findOrb_eq_none (l : List Orb) (i : Nat) (h : ∀ o ∈ l, o.id ≠ i) :
    findOrb l i = none := by
  induction l with
  | nil => rfl
  | cons a rest ih =>
    have ha : (a.id == i) = false := by
      simpa using h a (List.mem_cons_self a rest)
    rw [findOrb, ha]
    simp only [Bool.false_eq_true, if_false]
    exact ih fun o ho => h o (List.mem_cons_of_mem a ho)

lemma findOrb_mem (l : List Orb) (i : Nat) (o : Orb) (h : findOrb l i = some o) :
    o ∈ l ∧ o.id = i := by
  induction l with
  | nil => exact absurd h (by simp [findOrb])
  | cons a rest ih =>
    rw [findOrb] at h
    by_cases hid : (a.id == i) = true
    · rw [if_pos hid] at h
      injection h with h
      subst h
      exact ⟨List.mem_cons_self a rest, by simpa using hid⟩
    · rw [if_neg hid] at h
      obtain ⟨h1, h2⟩ := ih h
      exact ⟨List.mem_cons_of_mem a h1, h2⟩

lemma findOrb_captureFirst (l : List Orb) (i : Nat) (o : Orb) (h : findOrb l i = some o) :
    findOrb (captureFirst l i) i = some { o with captured := true } := by
  induction l with
  | nil => exact absurd h (by simp [findOrb])
  | cons a rest ih =>
    rw [findOrb] at h
    rw [captureFirst]
    by_cases hid : (a.id == i) = true
    · rw [if_pos hid] at h
      injection h with h
      subst h
      rw [if_pos hid, findOrb]
      simp only [if_pos hid]
    · rw [if_neg hid] at h
      rw [if_neg hid, findOrb, if_neg hid]
      exact ih h

lemma nodup_cons_of_map_id (a : Orb) (rest : List Orb) (h : ((a :: rest).map Orb.id).Nodup) :
    a.id ∉ rest.map Orb.id ∧ (rest.map Orb.id).Nodup := by
  rw [List.map_cons] at h
  exact List.nodup_cons.mp h

lemma findOrb_removeFirstOrb (l : List Orb) (i : Nat) (h : (l.map Orb.id).Nodup) :
    findOrb (removeFirstOrb l i) i = none := by
  induction l with
  | nil => rfl
  | cons a rest ih =>
    rw [removeFirstOrb]
    by_cases hid : (a.id == i) = true
    · rw [if_pos hid]
      apply findOrb_eq_none
      intro o ho hoi
      have hai : a.id = i := by simpa using hid
      have hmem : a.id ∈ rest.map Orb.id := by
        rw [hai, ← hoi]
        exact List.mem_map_of_mem Orb.id ho
      exact (nodup_cons_of_map_id a rest h).1 hmem
    · rw [if_neg hid, findOrb, if_neg hid]
      exact ih (nodup_cons_of_map_id a rest h).2

/-! Evaluation lemmas for concrete traces.  Rational arithmetic is sealed
against kernel reduction, so the single spot where a step computes with a
roll, pickOrbType, is evaluated once here; the remaining state is free of
rationals and computes by decide. -/

lemma pickOrbType_zero : pickOrbType 0 = commonOrb := by
  rw [pickOrbType, ORB_TYPES, pickScan]
  norm_num [commonOrb]

/-- The state reached from the constructor state by one start() call with
roll 0: one common orb with id 1, its expiry timeout pending, both tracked
timers armed. -/
def sRunning : GameState :=
  { score := 0, timeLeft := 60, orbs := [{ id := 1, typeName := "common", captured := false }],
    orbId := 1, isRunning := true, spawnTimeout := true, timerInterval := true,
    leakedSpawnTimeouts := 0, leakedIntervals := 0,
    expiryPending := [1], removalPending := [], feedback := ["notification:success"] }

lemma run_start_eval : run initState [Event.start 0] = sRunning := by
  simp [run_cons, run_nil, step, startGame, resetState, spawnLoop, spawnOrb, startTimer,
    initState, pickOrbType_zero, GAME_DURATION, commonOrb, sRunning]

/-- The state reached by start() then pause(): the tracked timers are
cleared, everything else as in sRunning. -/
def sPaused : GameState :=
  { sRunning with spawnTimeout := false, timerInterval := false }

lemma run_start_pause_eval : run initState [Event.start 0, Event.pause] = sPaused := by
  have h : run initState [Event.start 0, Event.pause]
      = step (run initState [Event.start 0]) Event.pause := rfl
  rw [h, run_start_eval]
  decide

/-- The state reached from sRunning by a resume() call with roll 0: a
second orb is spawned at once, a second expiry timeout becomes pending, and
the overwritten spawn timeout and tick interval are leaked. -/
def sResumed : GameState :=
  { sRunning with
    orbs := [{ id := 1, typeName := "common", captured := false },
             { id := 2, typeName := "common", captured := false }],
    orbId := 2, leakedSpawnTimeouts := 1, leakedIntervals := 1,
    expiryPending := [1, 2] }

lemma step_resume_eval : step sRunning (Event.resume 0) = sResumed := by
  simp [step, resumeGame, startTimer, spawnLoop, spawnOrb, pickOrbType_zero,
    sRunning, sResumed, commonOrb]

lemma run_start_resume_eval : run initState [Event.start 0, Event.resume 0] = sResumed := by
  have h : run initState [Event.start 0, Event.resume 0]
      = step (run initState [Event.start 0]) (Event.resume 0) := rfl
  rw [h, run_start_eval, step_resume_eval]

/-- The state reached by start(), resume() while running, then pause():
the tracked timers are cleared, but the leaked spawn timeout and the
leaked tick interval are still live. -/
def sResumedPaused : GameState :=
  { sResumed with spawnTimeout := false, timerInterval := false }

lemma run_start_resume_pause_eval :
    run initState [Event.start 0, Event.resume 0, Event.pause] = sResumedPaused := by
  have h : run initState [Event.start 0, Event.resume 0, Event.pause]
      = step (run initState [Event.start 0, Event.resume 0]) Event.pause := rfl
  rw [h, run_start_resume_eval]
  decide

/-- The state reached by two successive start() calls with roll 0: the
first orb was cleared from the play area by the second start(), but its
expiry timeout is still pending, and the id counter was not reset. -/
def sRestarted : GameState :=
  { score := 0, timeLeft := 60, orbs := [{ id := 2, typeName := "common", captured := false }],
    orbId := 2, isRunning := true, spawnTimeout := true, timerInterval := true,
    leakedSpawnTimeouts := 0, leakedIntervals := 0,
    expiryPending := [1, 2], removalPending := [],
    feedback := ["notification:success", "notification:success"] }

lemma run_start_start_eval : run initState [Event.start 0, Event.start 0] = sRestarted := by
  have h : run initState [Event.start 0, Event.start 0]
      = step (run initState [Event.start 0]) (Event.start 0) := rfl
  rw [h, run_start_eval]
  simp [step, startGame, resetState, spawnLoop, spawnOrb, startTimer,
    pickOrbType_zero, GAME_DURATION, commonOrb, sRunning, sRestarted]

/-! Single-step field-tracking lemmas. -/

lemma step_timeLeft_le (s : GameState) (e : Event) (h : s.timeLeft ≤ GAME_DURATION) :
    (step s e).timeLeft ≤ GAME_DURATION := by
  cases e with
  | start r =>
    simp [step, startGame, startTimer, spawnLoop, spawnOrb, resetState]
  | pause =>
    rw [step, pauseGame]
    split <;> simpa
  | resume r =>
    rw [step, resumeGame]
    split
    · simp only [startTimer, spawnLoop, spawnOrb]
      split <;> simpa
    · exact h
  | tap i =>
    rw [step, handleOrbTap]
    cases hf : findOrb s.orbs i with
    | none => exact h
    | some o =>
      dsimp only
      split
      · split
        · exact h
        · simp only [collectOrb]
          split
          · exact min_le_left _ _
          · exact h
      · exact h
  | spawnFire r =>
    rw [step]
    split
    · rw [spawnLoop]
      split <;> simpa [spawnOrb]
    · exact h
  | timerTick =>
    rw [step]
    split
    · rw [tick]
      split <;> simp [finish] <;> omega
    · exact h
  | leakedSpawnFire r =>
    rw [step]
    split
    · rw [spawnLoop]
      split <;> simpa [spawnOrb]
    · exact h
  | leakedTick =>
    rw [step]
    split
    · rw [tick]
      split <;> simp [finish] <;> omega
    · exact h
  | expiryFire i =>
    rw [step]
    split
    · rw [removeOrb]
      cases hf : findOrb { s with expiryPending := s.expiryPending.erase i }.orbs i with
      | none => exact h
      | some o =>
        dsimp only
        split <;> simpa
    · exact h
  | removalFire i =>
    rw [step]
    split <;> simpa

/-- C4: for every session and every sequence of captures (indeed every
event sequence the host can deliver), timeLeft never exceeds the fixed
session duration GAME_DURATION = 60: collectOrb clamps the granted
extraTime at the cap, even across multiple extra-time captures. -/
theorem c4 (evs : List Event) : (run initState evs).timeLeft ≤ GAME_DURATION := by
  have key : ∀ (l : List Event) (s : GameState),
      s.timeLeft ≤ GAME_DURATION → (run s l).timeLeft ≤ GAME_DURATION := by
    intro l
    induction l with
    | nil => intro s hs; exact hs
    | cons e rest ih =>
      intro s hs
      rw [run_cons]
      exact ih (step s e) (step_timeLeft_le s e hs)
  exact key evs initState (by norm_num [initState])

/-- C2 counterexample: after start() and pause() the session is Paused with
score 0, yet a tap event arriving in that state raises the score to 1 —
pause() does not clear isRunning, so handleOrbTap still accepts taps. -/
theorem c2_counterexample :
    statusOf (run initState [Event.start 0, Event.pause]) = Status.paused ∧
    (run initState [Event.start 0, Event.pause]).score = 0 ∧
    (step (run initState [Event.start 0, Event.pause]) (Event.tap 1)).score = 1 := by
  rw [run_start_pause_eval]
  decide

/-- C2 amended: under every event other than start() the score never
decreases, and while the engine is not running (Idle or Finished) it is
unchanged; while Paused, however, a tap can still raise it, because
pause() leaves isRunning set. -/
theorem c2_amended (s : GameState) (e : Event) (h : ∀ r, e ≠ Event.start r) :
    s.score ≤ (step s e).score ∧ (s.isRunning = false → (step s e).score = s.score) := by
  cases e with
  | start r => exact absurd rfl (h r)
  | pause =>
    rw [step, pauseGame]
    split <;> exact ⟨le_refl _, fun _ => rfl⟩
  | resume r =>
    rw [step, resumeGame]
    split
    · rename_i hr
      constructor
      · simp only [startTimer, spawnLoop, spawnOrb]
        split <;> simp
      · intro hfalse
        rw [hfalse] at hr
        exact absurd hr (by simp)
    · exact ⟨le_refl _, fun _ => rfl⟩
  | tap i =>
    rw [step, handleOrbTap]
    cases hf : findOrb s.orbs i with
    | none => exact ⟨le_refl _, fun _ => rfl⟩
    | some o =>
      dsimp only
      split
      · rename_i hr
        split
        · exact ⟨le_refl _, fun _ => rfl⟩
        · constructor
          · simp [collectOrb]
          · intro hfalse
            rw [hfalse] at hr
            exact absurd hr (by simp)
      · exact ⟨le_refl _, fun _ => rfl⟩
  | spawnFire r =>
    rw [step]
    split
    · rw [spawnLoop]
      split
      · exact ⟨by simp [spawnOrb], fun _ => by simp [spawnOrb]⟩
      · exact ⟨le_refl _, fun _ => rfl⟩
    · exact ⟨le_refl _, fun _ => rfl⟩
  | timerTick =>
    rw [step]
    split
    · rw [tick]
      split
      · exact ⟨by simp [finish], fun _ => by simp [finish]⟩
      · exact ⟨le_refl _, fun _ => rfl⟩
    · exact ⟨le_refl _, fun _ => rfl⟩
  | leakedSpawnFire r =>
    rw [step]
    split
    · rw [spawnLoop]
      split
      · exact ⟨by simp [spawnOrb], fun _ => by simp [spawnOrb]⟩
      · exact ⟨le_refl _, fun _ => rfl⟩
    · exact ⟨le_refl _, fun _ => rfl⟩
  | leakedTick =>
    rw [step]
    split
    · rw [tick]
      split
      · exact ⟨by simp [finish], fun _ => by simp [finish]⟩
      · exact ⟨le_refl _, fun _ => rfl⟩
    · exact ⟨le_refl _, fun _ => rfl⟩
  | expiryFire i =>
    rw [step]
    split
    · rw [removeOrb]
      cases hf : findOrb { s with expiryPending := s.expiryPending.erase i }.orbs i with
      | none => exact ⟨le_refl _, fun _ => rfl⟩
      | some o =>
        dsimp only
        split
        · exact ⟨le_refl _, fun _ => rfl⟩
        · exact ⟨by simp, fun _ => by simp⟩
    · exact ⟨le_refl _, fun _ => rfl⟩
  | removalFire i =>
    rw [step]
    split <;> exact ⟨le_refl _, fun _ => rfl⟩

/-- C2 amended, witness: the amended statement applied to the initial state
and a pause event. -/
theorem c2_amended_witness :
    initState.score ≤ (step initState Event.pause).score ∧
    (initState.isRunning = false → (step initState Event.pause).score = initState.score) :=
  c2_amended initState Event.pause (by intro r h; cases h)

/-- C3 counterexample: after start() and pause() the session is Paused and
the expiry timeout of orb 1 is still pending; it fires while paused,
removing the orb and emitting expiry feedback — pause() cancels only the
tracked spawn timeout and tick interval, never the per-orb expiry
timeouts.  Moreover, after start(), resume() while running, then pause(),
the tick interval and spawn timeout leaked by the resume() overwrite are
beyond the reach of pause(): the leaked tick still decrements timeLeft
while paused, and the leaked spawn timeout still fires spawnLoop while
paused, spawning an orb. -/
theorem c3_counterexample :
    statusOf (run initState [Event.start 0, Event.pause]) = Status.paused ∧
    (run initState [Event.start 0, Event.pause]).expiryPending = [1] ∧
    (run initState [Event.start 0, Event.pause]).orbs ≠ [] ∧
    (step (run initState [Event.start 0, Event.pause]) (Event.expiryFire 1)).orbs = [] ∧
    (step (run initState [Event.start 0, Event.pause]) (Event.expiryFire 1)).feedback
      = ["notification:success", "impact:light"] ∧
    statusOf (run initState [Event.start 0, Event.resume 0, Event.pause]) = Status.paused ∧
    (run initState [Event.start 0, Event.resume 0, Event.pause]).leakedIntervals = 1 ∧
    (step (run initState [Event.start 0, Event.resume 0, Event.pause]) Event.leakedTick).timeLeft
      = (run initState [Event.start 0, Event.resume 0, Event.pause]).timeLeft - 1 ∧
    (step (run initState [Event.start 0, Event.resume 0, Event.pause])
        (Event.leakedSpawnFire 0)).orbs.length
      = (run initState [Event.start 0, Event.resume 0, Event.pause]).orbs.length + 1 := by
  rw [run_start_pause_eval, run_start_resume_pause_eval]
  refine ⟨by decide, by decide, by decide, by decide, by decide, by decide, by decide, by decide, ?_⟩
  have h : step sResumedPaused (Event.leakedSpawnFire 0)
      = spawnLoop { sResumedPaused with leakedSpawnTimeouts := 0 } 0 := rfl
  rw [h, spawnLoop]
  simp [spawnOrb, sResumedPaused, sResumed, sRunning]

/-- C3 amended: pause() on a running session clears the tracked spawn
timeout and the tracked tick interval, so the spawn callback and the tick
belonging to those tracked handles cannot fire while paused (nor fire
twice after resume); the pause itself leaves score, timeLeft and the orbs
unchanged.  It cancels nothing else: the per-orb expiry timeouts remain
pending, and any spawn timeout or tick interval leaked by an earlier
resume()-while-running overwrite is untouched and keeps firing. -/
theorem c3_amended (s : GameState) (h : s.isRunning = true) :
    (step s Event.pause).spawnTimeout = false ∧
    (step s Event.pause).timerInterval = false ∧
    (∀ r, step (step s Event.pause) (Event.spawnFire r) = step s Event.pause) ∧
    step (step s Event.pause) Event.timerTick = step s Event.pause ∧
    (step s Event.pause).score = s.score ∧
    (step s Event.pause).timeLeft = s.timeLeft ∧
    (step s Event.pause).orbs = s.orbs ∧
    (step s Event.pause).expiryPending = s.expiryPending ∧
    (step s Event.pause).leakedSpawnTimeouts = s.leakedSpawnTimeouts ∧
    (step s Event.pause).leakedIntervals = s.leakedIntervals := by
  have hp : step s Event.pause = { s with spawnTimeout := false, timerInterval := false } := by
    rw [step, pauseGame, if_pos (by simp [h])]
  rw [hp]
  refine ⟨rfl, rfl, ?_, ?_, rfl, rfl, rfl, rfl, rfl, rfl⟩
  · intro r
    rw [step]
    simp
  · rw [step]
    simp

/-- C3 amended, witness: the amended statement applied to the state reached
by start() and a resume() while running, where both leak counters are one. -/
theorem c3_amended_witness :
    (step sResumed Event.pause).spawnTimeout = false ∧
    (step sResumed Event.pause).expiryPending = sResumed.expiryPending ∧
    (step sResumed Event.pause).leakedIntervals = sResumed.leakedIntervals :=
  have h := c3_amended sResumed (by decide)
  ⟨h.1, h.2.2.2.2.2.2.2.1, h.2.2.2.2.2.2.2.2.2⟩

/-- C5 counterexample: in a state that is Running with no intervening
pause, resume() is not a no-op: it immediately spawns a second orb and
schedules a new expiry timeout, so the set of pending timers changes. -/
theorem c5_counterexample :
    statusOf (run initState [Event.start 0]) = Status.running ∧
    (run initState [Event.start 0]).orbs.length = 1 ∧
    (run initState [Event.start 0]).expiryPending = [1] ∧
    (step (run initState [Event.start 0]) (Event.resume 0)).orbs.length = 2 ∧
    (step (run initState [Event.start 0]) (Event.resume 0)).expiryPending = [1, 2] := by
  rw [run_start_eval, step_resume_eval]
  decide

/-- C5 amended: resume() is a silent no-op exactly when the engine is not
running (Idle or Finished), leaving the whole state unchanged; whenever
isRunning is set — paused or not, there is no Running-then-paused check —
it immediately spawns one orb and re-arms the spawn timeout and the tick
interval, without resetting score or timeLeft. -/
theorem c5_amended (s : GameState) (r : ℚ) :
    (s.isRunning = false → step s (Event.resume r) = s) ∧
    (s.isRunning = true →
      (step s (Event.resume r)).timerInterval = true ∧
      (step s (Event.resume r)).spawnTimeout = true ∧
      (step s (Event.resume r)).score = s.score ∧
      (step s (Event.resume r)).timeLeft = s.timeLeft ∧
      (step s (Event.resume r)).orbs.length = s.orbs.length + 1) := by
  constructor
  · intro h
    rw [step, resumeGame, if_neg (by simp [h])]
  · intro h
    rw [step, resumeGame, if_pos (by simp [h])]
    simp [startTimer, spawnLoop, spawnOrb, if_pos (show s.isRunning = true by simp [h])]

/-- C5 amended, witness: the no-op branch applied to the initial state and
the spawning branch applied to the state reached by a start() call. -/
theorem c5_amended_witness :
    step initState (Event.resume 0) = initState ∧
    (step sRunning (Event.resume 0)).orbs.length = sRunning.orbs.length + 1 :=
  ⟨(c5_amended initState 0).1 rfl,
   ((c5_amended sRunning 0).2 (by decide)).2.2.2.2⟩

/-- C1: for an uncaptured connected orb in a running session whose expiry
timeout is pending, the tap handler and the expiry handler are serialized
by the captured flag: tapping awards the score of the looked-up type once,
a second tap of the same id is an exact no-op, an expiry firing after the
tap leaves score, timeLeft and feedback unchanged, and a tap after the
expiry has fired is an exact no-op. -/
theorem c1 (s : GameState) (i : Nat) (o : Orb)
    (hrun : s.isRunning = true)
    (hfind : findOrb s.orbs i = some o)
    (hcap : o.captured = false)
    (hpend : i ∈ s.expiryPending)
    (hnodup : (s.orbs.map Orb.id).Nodup) :
    (step s (Event.tap i)).score = s.score + (orbTypeFor o.typeName).score ∧
    step (step s (Event.tap i)) (Event.tap i) = step s (Event.tap i) ∧
    (step (step s (Event.tap i)) (Event.expiryFire i)).score = (step s (Event.tap i)).score ∧
    (step (step s (Event.tap i)) (Event.expiryFire i)).timeLeft = (step s (Event.tap i)).timeLeft ∧
    (step (step s (Event.tap i)) (Event.expiryFire i)).feedback = (step s (Event.tap i)).feedback ∧
    step (step s (Event.expiryFire i)) (Event.tap i) = step s (Event.expiryFire i) := by
  have step_tap : ∀ (t : GameState) (j : Nat), step t (Event.tap j) = handleOrbTap t j :=
    fun _ _ => rfl
  have step_exp : ∀ (t : GameState) (j : Nat), step t (Event.expiryFire j)
      = if j ∈ t.expiryPending then
          removeOrb { t with expiryPending := t.expiryPending.erase j } j true
        else t :=
    fun _ _ => rfl
  have htap : step s (Event.tap i)
      = collectOrb { s with orbs := captureFirst s.orbs i } i (orbTypeFor o.typeName) := by
    rw [step_tap, handleOrbTap, hfind]
    dsimp only
    rw [if_pos hrun, if_neg (by simp [hcap])]
  have hrun1 : (step s (Event.tap i)).isRunning = true := by
    rw [htap]
    exact hrun
  have hpend1 : i ∈ (step s (Event.tap i)).expiryPending := by
    rw [htap]
    exact hpend
  have hfind1 : findOrb (step s (Event.tap i)).orbs i = some { o with captured := true } := by
    rw [htap]
    exact findOrb_captureFirst s.orbs i o hfind
  have hexp1 : step (step s (Event.tap i)) (Event.expiryFire i)
      = { step s (Event.tap i) with
          expiryPending := (step s (Event.tap i)).expiryPending.erase i } := by
    rw [step_exp (step s (Event.tap i)) i, if_pos hpend1, removeOrb]
    dsimp only
    rw [hfind1]
    dsimp only
    rw [if_pos rfl]
  have hexp0 : step s (Event.expiryFire i)
      = { s with expiryPending := s.expiryPending.erase i,
                 orbs := removeFirstOrb s.orbs i,
                 feedback := s.feedback ++ ["impact:light"] } := by
    rw [step_exp s i, if_pos hpend, removeOrb]
    dsimp only
    rw [hfind]
    dsimp only
    rw [if_neg (by simp [hcap])]
    simp [hrun]
  refine ⟨?_, ?_, ?_, ?_, ?_, ?_⟩
  · rw [htap]
    rfl
  · rw [step_tap (step s (Event.tap i)) i, handleOrbTap, hfind1]
    dsimp only
    rw [if_pos hrun1, if_pos rfl]
  · rw [hexp1]
  · rw [hexp1]
  · rw [hexp1]
  · have hnone : findOrb (step s (Event.expiryFire i)).orbs i = none := by
      rw [hexp0]
      exact findOrb_removeFirstOrb s.orbs i hnodup
    rw [step_tap (step s (Event.expiryFire i)) i, handleOrbTap, hnone]

/-- C1 witness: the serialization applied to the state reached by a start()
call, its orb 1 and the tap-first ordering. -/
theorem c1_witness :
    (step sRunning (Event.tap 1)).score = sRunning.score + (orbTypeFor "common").score ∧
    step (step sRunning (Event.tap 1)) (Event.tap 1) = step sRunning (Event.tap 1) :=
  have h := c1 sRunning 1 { id := 1, typeName := "common", captured := false }
    (by decide) (by decide) (by decide) (by decide) (by decide)
  ⟨h.1, h.2.1⟩

/-- C10: an expiry callback firing for an orb id with no connected element
in the play area is a total no-op apart from consuming its own timeout: the
isConnected guard of removeOrb keeps score, timeLeft, the orbs, the id
counter, the running flag, both tracked timers, the pending removals, the
feedback log (in particular no expiry feedback) and the leaked-timer
counters unchanged. -/
theorem c10 (s : GameState) (i : Nat) (h : ∀ o ∈ s.orbs, o.id ≠ i) :
    (step s (Event.expiryFire i)).score = s.score ∧
    (step s (Event.expiryFire i)).timeLeft = s.timeLeft ∧
    (step s (Event.expiryFire i)).orbs = s.orbs ∧
    (step s (Event.expiryFire i)).orbId = s.orbId ∧
    (step s (Event.expiryFire i)).isRunning = s.isRunning ∧
    (step s (Event.expiryFire i)).spawnTimeout = s.spawnTimeout ∧
    (step s (Event.expiryFire i)).timerInterval = s.timerInterval ∧
    (step s (Event.expiryFire i)).removalPending = s.removalPending ∧
    (step s (Event.expiryFire i)).feedback = s.feedback ∧
    (step s (Event.expiryFire i)).leakedSpawnTimeouts = s.leakedSpawnTimeouts ∧
    (step s (Event.expiryFire i)).leakedIntervals = s.leakedIntervals := by
  have hn : findOrb s.orbs i = none := findOrb_eq_none s.orbs i h
  by_cases hmem : i ∈ s.expiryPending
  · have hstep : step s (Event.expiryFire i)
        = { s with expiryPending := s.expiryPending.erase i } := by
      rw [step, if_pos hmem, removeOrb]
      dsimp only
      rw [hn]
    rw [hstep]
    exact ⟨rfl, rfl, rfl, rfl, rfl, rfl, rfl, rfl, rfl, rfl, rfl⟩
  · rw [step, if_neg hmem]
    exact ⟨rfl, rfl, rfl, rfl, rfl, rfl, rfl, rfl, rfl, rfl, rfl⟩

/-- C10 witness: the stale expiry timeout of orb 1, left pending across two
start() calls that removed the orb, fires harmlessly in sRestarted. -/
theorem c10_witness :
    (step sRestarted (Event.expiryFire 1)).orbs = sRestarted.orbs ∧
    (step sRestarted (Event.expiryFire 1)).feedback = sRestarted.feedback :=
  have h := c10 sRestarted 1 (by decide)
  ⟨h.2.2.1, h.2.2.2.2.2.2.2.2.1⟩

/-! Quiescence of a finished (or idle) engine: with the running flag down
and both tracked timers cleared, every event other than start() keeps the
flags down, freezes the score, only shrinks the play area, and preserves
the leaked-interval count; timeLeft is frozen too when no tick interval
has been leaked, but a leaked interval keeps ticking even here. -/

lemma quiescent_step (s : GameState) (e : Event)
    (h1 : s.isRunning = false) (h2 : s.spawnTimeout = false) (h3 : s.timerInterval = false)
    (h4 : ∀ r, e ≠ Event.start r) :
    (step s e).isRunning = false ∧ (step s e).spawnTimeout = false ∧
    (step s e).timerInterval = false ∧ (step s e).score = s.score ∧
    (step s e).orbs.length ≤ s.orbs.length ∧
    (step s e).leakedIntervals = s.leakedIntervals ∧
    (s.leakedIntervals = 0 → (step s e).timeLeft = s.timeLeft) := by
  cases e with
  | start r => exact absurd rfl (h4 r)
  | pause =>
    rw [step, pauseGame, if_neg (by simp [h1])]
    exact ⟨h1, h2, h3, rfl, le_refl _, rfl, fun _ => rfl⟩
  | resume r =>
    rw [step, resumeGame, if_neg (by simp [h1])]
    exact ⟨h1, h2, h3, rfl, le_refl _, rfl, fun _ => rfl⟩
  | tap i =>
    rw [step, handleOrbTap]
    cases hf : findOrb s.orbs i with
    | none => exact ⟨h1, h2, h3, rfl, le_refl _, rfl, fun _ => rfl⟩
    | some o =>
      dsimp only
      rw [if_neg (by simp [h1])]
      exact ⟨h1, h2, h3, rfl, le_refl _, rfl, fun _ => rfl⟩
  | spawnFire r =>
    rw [step, if_neg (by simp [h2])]
    exact ⟨h1, h2, h3, rfl, le_refl _, rfl, fun _ => rfl⟩
  | timerTick =>
    rw [step, if_neg (by simp [h3])]
    exact ⟨h1, h2, h3, rfl, le_refl _, rfl, fun _ => rfl⟩
  | leakedSpawnFire r =>
    rw [step]
    by_cases hmem : s.leakedSpawnTimeouts ≠ 0
    · rw [if_pos hmem, spawnLoop, if_neg (by simp [h1])]
      exact ⟨h1, h2, h3, rfl, le_refl _, rfl, fun _ => rfl⟩
    · rw [if_neg hmem]
      exact ⟨h1, h2, h3, rfl, le_refl _, rfl, fun _ => rfl⟩
  | leakedTick =>
    rw [step]
    by_cases hmem : s.leakedIntervals ≠ 0
    · rw [if_pos hmem, tick]
      dsimp only
      split
      · exact ⟨rfl, rfl, rfl, rfl, le_refl _, rfl, fun h0 => absurd h0 hmem⟩
      · exact ⟨h1, h2, h3, rfl, le_refl _, rfl, fun h0 => absurd h0 hmem⟩
    · rw [if_neg hmem]
      exact ⟨h1, h2, h3, rfl, le_refl _, rfl, fun _ => rfl⟩
  | expiryFire i =>
    rw [step]
    by_cases hmem : i ∈ s.expiryPending
    · rw [if_pos hmem, removeOrb]
      cases hf : findOrb s.orbs i with
      | none =>
        exact ⟨h1, h2, h3, rfl, le_refl _, rfl, fun _ => rfl⟩
      | some o =>
        dsimp only
        by_cases hc : o.captured = true
        · rw [if_pos hc]
          exact ⟨h1, h2, h3, rfl, le_refl _, rfl, fun _ => rfl⟩
        · rw [if_neg hc]
          exact ⟨h1, h2, h3, rfl, (removeFirstOrb_sublist s.orbs i).length_le, rfl, fun _ => rfl⟩
    · rw [if_neg hmem]
      exact ⟨h1, h2, h3, rfl, le_refl _, rfl, fun _ => rfl⟩
  | removalFire i =>
    rw [step]
    by_cases hmem : i ∈ s.removalPending
    · rw [if_pos hmem]
      exact ⟨h1, h2, h3, rfl, (removeFirstOrb_sublist s.orbs i).length_le, rfl, fun _ => rfl⟩
    · rw [if_neg hmem]
      exact ⟨h1, h2, h3, rfl, le_refl _, rfl, fun _ => rfl⟩

lemma quiescent_run (evs : List Event) (s : GameState)
    (h1 : s.isRunning = false) (h2 : s.spawnTimeout = false) (h3 : s.timerInterval = false)
    (h4 : ∀ e ∈ evs, ∀ r, e ≠ Event.start r) :
    (run s evs).isRunning = false ∧ (run s evs).spawnTimeout = false ∧
    (run s evs).timerInterval = false ∧ (run s evs).score = s.score ∧
    (run s evs).orbs.length ≤ s.orbs.length ∧
    (run s evs).leakedIntervals = s.leakedIntervals ∧
    (s.leakedIntervals = 0 → (run s evs).timeLeft = s.timeLeft) := by
  induction evs generalizing s with
  | nil => exact ⟨h1, h2, h3, rfl, le_refl _, rfl, fun _ => rfl⟩
  | cons e rest ih =>
    have hs := quiescent_step s e h1 h2 h3 (h4 e (List.mem_cons_self e rest))
    have hr := ih (step s e) hs.1 hs.2.1 hs.2.2.1
      (fun x hx => h4 x (List.mem_cons_of_mem e hx))
    rw [run_cons]
    refine ⟨hr.1, hr.2.1, hr.2.2.1,
      hr.2.2.2.1.trans hs.2.2.2.1,
      le_trans hr.2.2.2.2.1 hs.2.2.2.2.1,
      hr.2.2.2.2.2.1.trans hs.2.2.2.2.2.1, ?_⟩
    intro h0
    have h0s : (step s e).leakedIntervals = 0 := hs.2.2.2.2.2.1.trans h0
    exact (hr.2.2.2.2.2.2 h0s).trans (hs.2.2.2.2.2.2 h0)

set_option maxRecDepth 8000 in
/-- C7 counterexample: start(), then resume() while running (which leaks
the tick interval), then sixty ticks bring timeLeft to zero while Running:
the engine transitions to Finished and clears the tracked timers, yet the
leaked interval still fires afterwards, decrementing timeLeft to minus one
and re-running finish(), which emits the finish notification a second
time — the timer is not stopped and Finished is not entered exactly once. -/
theorem c7_counterexample :
    (run initState ([Event.start 0, Event.resume 0]
        ++ List.replicate 60 Event.timerTick)).isRunning = false ∧
    (run initState ([Event.start 0, Event.resume 0]
        ++ List.replicate 60 Event.timerTick)).timeLeft = 0 ∧
    (run initState ([Event.start 0, Event.resume 0]
        ++ List.replicate 60 Event.timerTick)).timerInterval = false ∧
    (run initState ([Event.start 0, Event.resume 0]
        ++ List.replicate 60 Event.timerTick)).leakedIntervals = 1 ∧
    (step (run initState ([Event.start 0, Event.resume 0]
        ++ List.replicate 60 Event.timerTick)) Event.leakedTick).timeLeft = -1 ∧
    (step (run initState ([Event.start 0, Event.resume 0]
        ++ List.replicate 60 Event.timerTick)) Event.leakedTick).feedback
      = (run initState ([Event.start 0, Event.resume 0]
          ++ List.replicate 60 Event.timerTick)).feedback ++ ["notification:success"] := by
  have h : run initState ([Event.start 0, Event.resume 0] ++ List.replicate 60 Event.timerTick)
      = run sResumed (List.replicate 60 Event.timerTick) := by
    rw [run_append, run_start_resume_eval]
  rw [h]
  decide

/-- C7 amended: a tracked tick decrements timeLeft by exactly one; when the
decremented value is at or below zero, the engine finishes: the running
flag is cleared together with the tracked spawn timeout and tick interval,
and under every following event sequence free of start() it stays
finished, the score no longer changes and no further orb ever appears (the
play area can only shrink); timeLeft too no longer changes provided no
tick interval was leaked by a resume()-while-running overwrite — a leaked
interval keeps decrementing it even after Finished. -/
theorem c7_amended (s : GameState) (hi : s.timerInterval = true) :
    (step s Event.timerTick).timeLeft = s.timeLeft - 1 ∧
    ((step s Event.timerTick).timeLeft ≤ 0 →
      (step s Event.timerTick).isRunning = false ∧
      (step s Event.timerTick).spawnTimeout = false ∧
      (step s Event.timerTick).timerInterval = false ∧
      (∀ evs, (∀ e ∈ evs, ∀ r, e ≠ Event.start r) →
        (run (step s Event.timerTick) evs).isRunning = false ∧
        (run (step s Event.timerTick) evs).score = (step s Event.timerTick).score ∧
        (run (step s Event.timerTick) evs).orbs.length
          ≤ (step s Event.timerTick).orbs.length ∧
        (s.leakedIntervals = 0 →
          (run (step s Event.timerTick) evs).timeLeft = (step s Event.timerTick).timeLeft))) := by
  have hstep : step s Event.timerTick = tick s := by
    rw [step, if_pos hi]
  have htl : (step s Event.timerTick).timeLeft = s.timeLeft - 1 := by
    rw [hstep, tick]
    dsimp only
    split
    · rfl
    · rfl
  refine ⟨htl, fun hle => ?_⟩
  have hcond : s.timeLeft - 1 ≤ 0 := by
    rw [← htl]
    exact hle
  have hfin : step s Event.timerTick = finish { s with timeLeft := s.timeLeft - 1 } := by
    rw [hstep, tick]
    dsimp only
    rw [if_pos hcond]
  have hr : (step s Event.timerTick).isRunning = false := by
    rw [hfin]
    rfl
  have hsp : (step s Event.timerTick).spawnTimeout = false := by
    rw [hfin]
    rfl
  have hti : (step s Event.timerTick).timerInterval = false := by
    rw [hfin]
    rfl
  have hleak : (step s Event.timerTick).leakedIntervals = s.leakedIntervals := by
    rw [hfin]
    rfl
  refine ⟨hr, hsp, hti, fun evs hevs => ?_⟩
  have q := quiescent_run evs (step s Event.timerTick) hr hsp hti hevs
  exact ⟨q.1, q.2.2.2.1, q.2.2.2.2.1,
    fun h0 => q.2.2.2.2.2.2 (hleak.trans h0)⟩

/-- C7 amended, witness: a leak-free running state one second from the
end: the tick finishes the session and two further non-start events change
neither the running flag nor timeLeft. -/
theorem c7_amended_witness :
    (step { sRunning with timeLeft := 1 } Event.timerTick).timeLeft
      = ({ sRunning with timeLeft := 1 } : GameState).timeLeft - 1 ∧
    (run (step { sRunning with timeLeft := 1 } Event.timerTick)
        [Event.spawnFire 0, Event.timerTick]).isRunning = false ∧
    (run (step { sRunning with timeLeft := 1 } Event.timerTick)
        [Event.spawnFire 0, Event.timerTick]).timeLeft
      = (step { sRunning with timeLeft := 1 } Event.timerTick).timeLeft :=
  have h := c7_amended { sRunning with timeLeft := 1 } (by decide)
  have h2 := (h.2 (by rw [h.1]; decide)).2.2.2 [Event.spawnFire 0, Event.timerTick]
    (by intro e he r; fin_cases he <;> simp)
  ⟨h.1, h2.1, h2.2.2.2 (by decide)⟩

/-! Id-freshness invariant: ids in the play area are distinct and bounded
by the counter, and likewise for the pending expiry timeouts. -/

def IdInv (s : GameState) : Prop :=
  (s.orbs.map Orb.id).Nodup ∧ (∀ o ∈ s.orbs, o.id ≤ s.orbId) ∧
  s.expiryPending.Nodup ∧ (∀ j ∈ s.expiryPending, j ≤ s.orbId)

lemma nodup_append_singleton (l : List Nat) (a : Nat) (h : l.Nodup) (ha : a ∉ l) :
    (l ++ [a]).Nodup := by
  rw [List.nodup_append]
  refine ⟨h, List.nodup_singleton a, ?_⟩
  intro x hx hy
  rw [List.mem_singleton] at hy
  subst hy
  exact ha hx

lemma idInv_of_map_id (s t : GameState) (h : IdInv s)
    (ho : t.orbs.map Orb.id = s.orbs.map Orb.id)
    (hid : t.orbId = s.orbId)
    (he : t.expiryPending = s.expiryPending) : IdInv t := by
  obtain ⟨h1, h2, h3, h4⟩ := h
  refine ⟨ho ▸ h1, ?_, he ▸ h3, ?_⟩
  · intro o hom
    have hmem : o.id ∈ s.orbs.map Orb.id := by
      rw [← ho]
      exact List.mem_map_of_mem Orb.id hom
    obtain ⟨o2, ho2, hid2⟩ := List.mem_map.mp hmem
    rw [hid, ← hid2]
    exact h2 o2 ho2
  · intro j hj
    rw [hid]
    exact h4 j (he ▸ hj)

lemma idInv_shrink (s t : GameState) (h : IdInv s)
    (ho : List.Sublist t.orbs s.orbs)
    (hid : t.orbId = s.orbId)
    (he : List.Sublist t.expiryPending s.expiryPending) : IdInv t := by
  obtain ⟨h1, h2, h3, h4⟩ := h
  refine ⟨h1.sublist (ho.map Orb.id), ?_, h3.sublist he, ?_⟩
  · intro o hom
    rw [hid]
    exact h2 o (ho.mem hom)
  · intro j hj
    rw [hid]
    exact h4 j (he.mem hj)

lemma idInv_spawnOrb (s : GameState) (r : ℚ) (h : IdInv s) : IdInv (spawnOrb s r) := by
  obtain ⟨h1, h2, h3, h4⟩ := h
  refine ⟨?_, ?_, ?_, ?_⟩
  · simp only [spawnOrb, List.map_append, List.map_cons, List.map_nil]
    refine nodup_append_singleton _ _ h1 ?_
    intro hmem
    obtain ⟨o2, ho2, hid2⟩ := List.mem_map.mp hmem
    have := h2 o2 ho2
    omega
  · intro o hom
    simp only [spawnOrb, List.mem_append, List.mem_singleton] at hom
    simp only [spawnOrb]
    rcases hom with hom | hom
    · exact le_trans (h2 o hom) (Nat.le_succ _)
    · subst hom
      exact le_refl _
  · simp only [spawnOrb]
    refine nodup_append_singleton _ _ h3 ?_
    intro hmem
    have := h4 _ hmem
    omega
  · intro j hj
    simp only [spawnOrb, List.mem_append, List.mem_singleton] at hj
    simp only [spawnOrb]
    rcases hj with hj | hj
    · exact le_trans (h4 j hj) (Nat.le_succ _)
    · omega

lemma idInv_step (s : GameState) (e : Event) (h : IdInv s) : IdInv (step s e) := by
  cases e with
  | start r =>
    have hmid : IdInv { resetState s with isRunning := true } := by
      refine ⟨?_, ?_, ?_, ?_⟩
      · simp [resetState]
      · simp [resetState]
      · simpa [resetState] using h.2.2.1
      · intro j hj
        simp only [resetState] at hj
        exact h.2.2.2 j hj
    exact idInv_of_map_id _ _ (idInv_spawnOrb _ r hmid) rfl rfl rfl
  | pause =>
    rw [step, pauseGame]
    split
    · exact idInv_of_map_id s _ h rfl rfl rfl
    · exact h
  | resume r =>
    rw [step, resumeGame]
    split
    · rename_i hr
      rw [spawnLoop, if_pos hr]
      exact idInv_of_map_id _ _ (idInv_spawnOrb s r h) rfl rfl rfl
    · exact h
  | tap i =>
    rw [step, handleOrbTap]
    cases hf : findOrb s.orbs i with
    | none => exact h
    | some o =>
      dsimp only
      split
      · split
        · exact h
        · exact idInv_of_map_id s _ h (captureFirst_map_id s.orbs i) rfl rfl
      · exact h
  | spawnFire r =>
    rw [step]
    split
    · rw [spawnLoop]
      split
      · have hmid : IdInv { s with spawnTimeout := false } :=
          idInv_of_map_id s _ h rfl rfl rfl
        exact idInv_of_map_id _ _ (idInv_spawnOrb _ r hmid) rfl rfl rfl
      · exact idInv_of_map_id s _ h rfl rfl rfl
    · exact h
  | timerTick =>
    rw [step]
    split
    · rw [tick]
      dsimp only
      split
      · exact idInv_of_map_id s _ h rfl rfl rfl
      · exact idInv_of_map_id s _ h rfl rfl rfl
    · exact h
  | leakedSpawnFire r =>
    rw [step]
    split
    · rw [spawnLoop]
      split
      · have hmid : IdInv { s with leakedSpawnTimeouts := s.leakedSpawnTimeouts - 1 } :=
          idInv_of_map_id s _ h rfl rfl rfl
        exact idInv_of_map_id _ _ (idInv_spawnOrb _ r hmid) rfl rfl rfl
      · exact idInv_of_map_id s _ h rfl rfl rfl
    · exact h
  | leakedTick =>
    rw [step]
    split
    · rw [tick]
      dsimp only
      split
      · exact idInv_of_map_id s _ h rfl rfl rfl
      · exact idInv_of_map_id s _ h rfl rfl rfl
    · exact h
  | expiryFire i =>
    rw [step]
    split
    · rw [removeOrb]
      cases hf : findOrb s.orbs i with
      | none =>
        exact idInv_shrink s _ h (List.Sublist.refl _) rfl (List.erase_sublist i s.expiryPending)
      | some o =>
        dsimp only
        split
        · exact idInv_shrink s _ h (List.Sublist.refl _) rfl (List.erase_sublist i s.expiryPending)
        · exact idInv_shrink s _ h (removeFirstOrb_sublist s.orbs i) rfl
            (List.erase_sublist i s.expiryPending)
    · exact h
  | removalFire i =>
    rw [step]
    split
    · exact idInv_shrink s _ h (removeFirstOrb_sublist s.orbs i) rfl (List.Sublist.refl _)
    · exact h

lemma idInv_initState : IdInv initState := by
  refine ⟨?_, ?_, ?_, ?_⟩ <;> simp [initState]

lemma idInv_run (evs : List Event) : IdInv (run initState evs) := by
  have key : ∀ (l : List Event) (s : GameState), IdInv s → IdInv (run s l) := by
    intro l
    induction l with
    | nil => intro s hs; exact hs
    | cons e rest ih =>
      intro s hs
      rw [run_cons]
      exact ih _ (idInv_step s e hs)
  exact key evs initState idInv_initState

lemma spawnLoop_orbId_le (s : GameState) (r : ℚ) : s.orbId ≤ (spawnLoop s r).orbId := by
  rw [spawnLoop]
  split
  · exact Nat.le_succ s.orbId
  · exact Nat.le_refl s.orbId

lemma step_orbId_mono (s : GameState) (e : Event) : s.orbId ≤ (step s e).orbId := by
  cases e with
  | start r => exact Nat.le_succ s.orbId
  | pause =>
    rw [step, pauseGame]
    split
    · exact Nat.le_refl s.orbId
    · exact Nat.le_refl s.orbId
  | resume r =>
    rw [step, resumeGame]
    split
    · exact spawnLoop_orbId_le s r
    · exact Nat.le_refl s.orbId
  | tap i =>
    rw [step, handleOrbTap]
    cases hf : findOrb s.orbs i with
    | none => exact Nat.le_refl s.orbId
    | some o =>
      dsimp only
      split
      · split
        · exact Nat.le_refl s.orbId
        · exact Nat.le_refl s.orbId
      · exact Nat.le_refl s.orbId
  | spawnFire r =>
    rw [step]
    split
    · exact spawnLoop_orbId_le { s with spawnTimeout := false } r
    · exact Nat.le_refl s.orbId
  | timerTick =>
    rw [step]
    split
    · rw [tick]
      dsimp only
      split
      · exact Nat.le_refl s.orbId
      · exact Nat.le_refl s.orbId
    · exact Nat.le_refl s.orbId
  | leakedSpawnFire r =>
    rw [step]
    split
    · exact spawnLoop_orbId_le { s with leakedSpawnTimeouts := s.leakedSpawnTimeouts - 1 } r
    · exact Nat.le_refl s.orbId
  | leakedTick =>
    rw [step]
    split
    · rw [tick]
      dsimp only
      split
      · exact Nat.le_refl s.orbId
      · exact Nat.le_refl s.orbId
    · exact Nat.le_refl s.orbId
  | expiryFire i =>
    rw [step]
    split
    · rw [removeOrb]
      cases hf : findOrb s.orbs i with
      | none => exact Nat.le_refl s.orbId
      | some o =>
        dsimp only
        split
        · exact Nat.le_refl s.orbId
        · exact Nat.le_refl s.orbId
    · exact Nat.le_refl s.orbId
  | removalFire i =>
    rw [step]
    split
    · exact Nat.le_refl s.orbId
    · exact Nat.le_refl s.orbId

/-- C9: along every event sequence the connected orb ids are pairwise
distinct and bounded by the id counter; no event (in particular not
start()) ever lowers the counter; a spawn appends exactly the fresh id
counter-plus-one, strictly above every id ever assigned; and a start()
call continues the counter at counter-plus-one instead of resetting it, so
ids are unique across all sessions of one engine instance. -/
theorem c9 (evs : List Event) :
    ((run initState evs).orbs.map Orb.id).Nodup ∧
    (∀ o ∈ (run initState evs).orbs, o.id ≤ (run initState evs).orbId) ∧
    (∀ e, (run initState evs).orbId ≤ (step (run initState evs) e).orbId) ∧
    (∀ r, (spawnOrb (run initState evs) r).orbs.map Orb.id
        = (run initState evs).orbs.map Orb.id ++ [(run initState evs).orbId + 1]) ∧
    (∀ r, (step (run initState evs) (Event.start r)).orbId = (run initState evs).orbId + 1) := by
  have hI := idInv_run evs
  refine ⟨hI.1, hI.2.1, fun e => step_orbId_mono _ e, fun r => ?_, fun r => ?_⟩
  · simp [spawnOrb]
  · simp only [step, startGame, startTimer, spawnLoop, spawnOrb, resetState]
    simp

/-- C9 witness: after two start() calls the connected ids are distinct, the
surviving orb id is bounded by the counter, and a pause does not lower the
counter. -/
theorem c9_witness :
    ((run initState [Event.start 0, Event.start 0]).orbs.map Orb.id).Nodup ∧
    ({ id := 2, typeName := "common", captured := false } : Orb).id
      ≤ (run initState [Event.start 0, Event.start 0]).orbId ∧
    (run initState [Event.start 0, Event.start 0]).orbId
      ≤ (step (run initState [Event.start 0, Event.start 0]) Event.pause).orbId :=
  ⟨(c9 [Event.start 0, Event.start 0]).1,
   (c9 [Event.start 0, Event.start 0]).2.1 { id := 2, typeName := "common", captured := false }
     (by rw [run_start_start_eval]; decide),
   (c9 [Event.start 0, Event.start 0]).2.2.1 Event.pause⟩

/-! Spawn-delay arithmetic (claim C6). -/

lemma activeSpawnCfg_eval (score : Nat) :
    activeSpawnCfg score =
      if 55 ≤ score then ⟨55, 600⟩
      else if 40 ≤ score then ⟨40, 750⟩
      else if 20 ≤ score then ⟨20, 900⟩
      else ⟨0, 1200⟩ := by
  rw [activeSpawnCfg, SPAWN_CONFIG]
  simp only [List.headI, List.foldl_cons, List.foldl_nil, Nat.zero_le, if_true]

lemma specActiveInterval_eval (score : Nat) :
    specActiveInterval score =
      if 55 ≤ score then 600 else if 40 ≤ score then 750 else if 20 ≤ score then 900 else 1200 := by
  rw [specActiveInterval, SPAWN_CONFIG]
  by_cases h55 : 55 ≤ score
  · have h40 : 40 ≤ score := by omega
    have h20 : 20 ≤ score := by omega
    simp [List.filter, List.getLastD, h55, h40, h20, Nat.zero_le]
  · by_cases h40 : 40 ≤ score
    · have h20 : 20 ≤ score := by omega
      simp [List.filter, List.getLastD, h55, h40, h20, Nat.zero_le]
    · by_cases h20 : 20 ≤ score
      · simp [List.filter, List.getLastD, h55, h40, h20, Nat.zero_le]
      · simp [List.filter, List.getLastD, h55, h40, h20, Nat.zero_le]

lemma activeInterval_eq_spec (score : Nat) :
    (activeSpawnCfg score).interval = specActiveInterval score := by
  rw [activeSpawnCfg_eval, specActiveInterval_eval]
  split_ifs <;> rfl

lemma activeInterval_antitone (a b : Nat) (hab : a ≤ b) :
    (activeSpawnCfg b).interval ≤ (activeSpawnCfg a).interval := by
  rw [activeSpawnCfg_eval, activeSpawnCfg_eval]
  split_ifs <;> first | (exfalso; omega) | norm_num

/-- C6: for a roll in [0, 1] the next spawn delay of spawnLoop equals
max(320, activeInterval + jitter), where the interval chosen by the fold of
the source agrees with the last SPAWN_CONFIG entry (in ascending threshold
order) whose threshold is at most the score, the jitter lies in the
symmetric range [-110, 110], the delay never falls below the 320 floor, and
the chosen interval is non-increasing as the score grows. -/
theorem c6 (score : Nat) (r : ℚ) (h0 : 0 ≤ r) (h1 : r ≤ 1) :
    nextSpawnDelay score r = max 320 (specActiveInterval score + spawnJitter r) ∧
    (-110 ≤ spawnJitter r ∧ spawnJitter r ≤ 110) ∧
    320 ≤ nextSpawnDelay score r ∧
    (∀ a b : Nat, a ≤ b → (activeSpawnCfg b).interval ≤ (activeSpawnCfg a).interval) := by
  refine ⟨?_, ⟨?_, ?_⟩, ?_, fun a b hab => activeInterval_antitone a b hab⟩
  · rw [nextSpawnDelay, activeInterval_eq_spec]
  · rw [spawnJitter]
    linarith
  · rw [spawnJitter]
    linarith
  · rw [nextSpawnDelay]
    exact le_max_left _ _

/-- C6 witness: the delay formula at score 0 and roll one half. -/
theorem c6_witness :
    nextSpawnDelay 0 (1/2) = max 320 (specActiveInterval 0 + spawnJitter (1/2)) ∧
    320 ≤ nextSpawnDelay 0 (1/2) :=
  have h := c6 0 (1/2) (by norm_num) (by norm_num)
  ⟨h.1, h.2.2.1⟩

/-- C8: orb-type selection scans the catalog in declared order against the
cumulative weights 7/10, 9/10 and 1, returning the first type whose
cumulative weight is at least the roll, and any roll strictly above the
cumulative total falls back deterministically to the first catalog entry. -/
theorem c8 (r : ℚ) :
    (r ≤ 7/10 → pickOrbType r = commonOrb) ∧
    (7/10 < r → r ≤ 9/10 → pickOrbType r = rareOrb) ∧
    (9/10 < r → r ≤ 1 → pickOrbType r = bonusOrb) ∧
    ((ORB_TYPES.map OrbType.weight).sum < r → pickOrbType r = commonOrb) := by
  have hw1 : (0 : ℚ) + commonOrb.weight = 7/10 := by norm_num [commonOrb]
  have hw2 : (7/10 : ℚ) + rareOrb.weight = 9/10 := by norm_num [rareOrb]
  have hw3 : (9/10 : ℚ) + bonusOrb.weight = 1 := by norm_num [bonusOrb]
  have heval : pickOrbType r =
      if r ≤ 7/10 then commonOrb
      else if r ≤ 9/10 then rareOrb
      else if r ≤ 1 then bonusOrb
      else commonOrb := by
    rw [pickOrbType, ORB_TYPES]
    rw [pickScan, hw1]
    by_cases hc1 : r ≤ 7/10
    · rw [if_pos hc1, if_pos hc1]
      rfl
    · rw [if_neg hc1, if_neg hc1, pickScan, hw2]
      by_cases hc2 : r ≤ 9/10
      · rw [if_pos hc2, if_pos hc2]
        rfl
      · rw [if_neg hc2, if_neg hc2, pickScan, hw3]
        by_cases hc3 : r ≤ 1
        · rw [if_pos hc3, if_pos hc3]
          rfl
        · rw [if_neg hc3, if_neg hc3, pickScan]
          rfl
  have hsum : (ORB_TYPES.map OrbType.weight).sum = 1 := by
    norm_num [ORB_TYPES, commonOrb, rareOrb, bonusOrb, List.sum_cons, List.sum_nil]
  refine ⟨?_, ?_, ?_, ?_⟩
  · intro h
    rw [heval, if_pos h]
  · intro h1 h2
    rw [heval, if_neg (by linarith), if_pos h2]
  · intro h1 h2
    rw [heval, if_neg (by linarith), if_neg (by linarith), if_pos h2]
  · intro h
    rw [hsum] at h
    rw [heval, if_neg (by linarith), if_neg (by linarith), if_neg (by linarith)]

/-- C8 witness: one roll in each cumulative band and one above the total. -/
theorem c8_witness :
    pickOrbType (1/2) = commonOrb ∧ pickOrbType (4/5) = rareOrb ∧
    pickOrbType (19/20) = bonusOrb ∧ pickOrbType 2 = commonOrb :=
  ⟨(c8 (1/2)).1 (by norm_num),
   (c8 (4/5)).2.1 (by norm_num) (by norm_num),
   (c8 (19/20)).2.2.1 (by norm_num) (by norm_num),
   (c8 2).2.2.2 (by norm_num [ORB_TYPES, commonOrb, rareOrb, bonusOrb, List.sum_cons, List.sum_nil])⟩

end SkyOrchard
